import Mathlib

/-
Verification of the hourly air-quality report pipeline
(dags/create_hourly_air_quality_report.py).

The pipeline has three stages:
  get_aq_data_last_day      - reads the csv rows and keeps those with
                              timestamp >= run_time - 23h (skips the run
                              when the source file is absent);
  caluclate_avg_aq_per_hour - buckets the kept rows by hour-of-day and
                              averages pm2_5 / pm10 per bucket;
  send_aq_report            - formats one log line per report entry.

Embedding choices: csv rows are records of raw strings, exactly as
csv.DictReader yields them; datetime.strptime with format
%Y-%m-%dT%H:%M:%S%z is modelled by parseTimestamp (the +HH:MM offset
form used by the data); float() on the decimal literals of the data is
modelled by parseFloat into the rationals; aware-datetime comparison is
comparison of epoch seconds; a raised exception is Option.none,
AirflowSkipException is the distinguished RunOutcome.skipped.
-/

namespace AqReport

/-- One row of include/aq_data.csv as csv.DictReader yields it: raw strings. -/
structure CsvRow where
  timestamp : String
  pm2_5 : String
  pm10 : String
deriving DecidableEq

/-- The result of datetime.strptime with format %Y-%m-%dT%H:%M:%S%z :
an aware datetime, carried as its civil fields plus the utc offset in minutes. -/
structure PyDateTime where
  year : Nat
  month : Nat
  day : Nat
  hour : Nat
  minute : Nat
  second : Nat
  tzMinutes : Int
deriving DecidableEq

/-- Value of a decimal digit character, none when not a digit. -/
def digitVal (c : Char) : Option Nat :=
  if c.isDigit then some (c.toNat - 48) else none

/-- Two-digit field of the timestamp format. -/
def parse2 (a b : Char) : Option Nat := do
  let x ← digitVal a
  let y ← digitVal b
  pure (10 * x + y)

/-- Four-digit year field of the timestamp format. -/
def parse4 (a b c d : Char) : Option Nat := do
  let x ← parse2 a b
  let y ← parse2 c d
  pure (100 * x + y)

/-- Leap-year rule of the proleptic Gregorian calendar, as Python's datetime uses. -/
def isLeapYear (y : Nat) : Bool :=
  (y % 4 == 0 && y % 100 != 0) || (y % 400 == 0)

/-- Number of days of month m of year y. -/
def daysInMonth (y m : Nat) : Nat :=
  if m = 2 then (if isLeapYear y then 29 else 28)
  else if m = 4 ∨ m = 6 ∨ m = 9 ∨ m = 11 then 30 else 31

/-- Sign character of the utc offset field. -/
def signVal (c : Char) : Option Int :=
  if c = '+' then some 1 else if c = '-' then some (-1) else none

/-- Model of datetime.strptime(s, "%Y-%m-%dT%H:%M:%S%z") for the
YYYY-MM-DDTHH:MM:SS+HH:MM shape the pipeline's data uses; none models the
ValueError raised on any other input. -/
def parseTimestamp (s : String) : Option PyDateTime :=
  match s.toList with
  | [y1, y2, y3, y4, '-', m1, m2, '-', d1, d2, 'T',
     h1, h2, ':', n1, n2, ':', s1, s2, sg, o1, o2, ':', p1, p2] => do
    let y ← parse4 y1 y2 y3 y4
    let mo ← parse2 m1 m2
    let da ← parse2 d1 d2
    let ho ← parse2 h1 h2
    let mi ← parse2 n1 n2
    let se ← parse2 s1 s2
    let oh ← parse2 o1 o2
    let om ← parse2 p1 p2
    let sign ← signVal sg
    if 1 ≤ y ∧ 1 ≤ mo ∧ mo ≤ 12 ∧ 1 ≤ da ∧ da ≤ daysInMonth y mo ∧
        ho ≤ 23 ∧ mi ≤ 59 ∧ se ≤ 59 ∧ oh ≤ 23 ∧ om ≤ 59 then
      some ⟨y, mo, da, ho, mi, se, sign * (60 * oh + om)⟩
    else none
  | _ => none

/-- Days since 1970-01-01 of the civil date y-m-d (proleptic Gregorian,
year ≥ 1). -/
def daysFromCivil (y m d : Nat) : Int :=
  let yy := if m ≤ 2 then y - 1 else y
  let era := yy / 400
  let yoe := yy % 400
  let mp := (m + 9) % 12
  let doy := (153 * mp + 2) / 5 + (d - 1)
  let doe := yoe * 365 + yoe / 4 - yoe / 100 + doy
  (era * 146097 + doe : Int) - 719468

/-- The instant an aware datetime denotes, in seconds since the epoch;
Python compares aware datetimes by this instant. -/
def PyDateTime.toEpochSeconds (t : PyDateTime) : Int :=
  daysFromCivil t.year t.month t.day * 86400
    + (t.hour * 3600 + t.minute * 60 + t.second : Nat) - t.tzMinutes * 60

/-- All characters of the list are decimal digits. -/
def allDigits (l : List Char) : Bool :=
  l.all Char.isDigit

/-- Value of a digit string, most significant first. -/
def natOfDigits (l : List Char) : Nat :=
  l.foldl (fun acc c => 10 * acc + (c.toNat - 48)) 0

/-- Split at the first dot: characters before it, and those after when a dot exists. -/
def splitAtDot : List Char → List Char × Option (List Char)
  | [] => ([], none)
  | '.' :: rest => ([], some rest)
  | c :: rest =>
    let p := splitAtDot rest
    (c :: p.1, p.2)

/-- Unsigned part of a Python float literal: digits with at most one dot and
at least one digit. -/
def parseUnsigned (l : List Char) : Option ℚ :=
  match splitAtDot l with
  | (ip, none) =>
    if ip ≠ [] ∧ allDigits ip then some (natOfDigits ip) else none
  | (ip, some fp) =>
    if (ip ≠ [] ∨ fp ≠ []) ∧ allDigits ip ∧ allDigits fp then
      some ((natOfDigits ip : ℚ) + (natOfDigits fp : ℚ) / (10 ^ fp.length))
    else none

/-- Model of Python float() on the decimal literals the pipeline's data uses
(optional sign, digits, optional dot); none models the ValueError raised
otherwise. Reals are embedded as rationals. -/
def parseFloat (s : String) : Option ℚ :=
  match s.toList with
  | [] => none
  | '+' :: rest => parseUnsigned rest
  | '-' :: rest => (parseUnsigned rest).map Neg.neg
  | l => parseUnsigned l

/-- An average of a bucket: a number, or the "NO DATA" sentinel the code
stores when the bucket has no values. -/
inductive AqValue where
  | num : ℚ → AqValue
  | noData : AqValue
deriving DecidableEq

/-- One value of the report dict: the two averages of one hour bucket. -/
structure HourEntry where
  avg_pm2_5 : AqValue
  avg_pm10 : AqValue
deriving DecidableEq

/-- Outcome of a task or of the whole dag run: success with a value,
the distinguished skip of AirflowSkipException, or a raised error. -/
inductive RunOutcome (α : Type) where
  | success : α → RunOutcome α
  | skipped : RunOutcome α
  | failed : RunOutcome α
deriving DecidableEq

/-- The filtering list comprehension of get_aq_data_last_day: keeps the rows
with strptime(row.timestamp) >= cutoff_time; none models the ValueError
raised when some row's timestamp fails to parse. -/
def keepLastDay (cutoff : Int) : List CsvRow → Option (List CsvRow)
  | [] => some []
  | r :: rest => do
    let dt ← parseTimestamp r.timestamp
    let tail ← keepLastDay cutoff rest
    pure (if cutoff ≤ dt.toEpochSeconds then r :: tail else tail)

/-- Task get_aq_data_last_day: parse the run timestamp ts, form the cutoff
ts - 23h, skip the run when the source file is absent (source = none), and
keep the rows at or after the cutoff. -/
def get_aq_data_last_day (tsStr : String) (source : Option (List CsvRow)) :
    RunOutcome (List CsvRow) :=
  match parseTimestamp tsStr with
  | none => .failed
  | some t =>
    match source with
    | none => .skipped
    | some data =>
      match keepLastDay (t.toEpochSeconds - 23 * 3600) data with
      | none => .failed
      | some rows => .success rows

/-- The enumeration last_24_hours = [(current_hour - i) % 24 for i in
range(24)]; Python's % on a positive modulus is Int.emod. -/
def last24Hours (currentHour : Nat) : List Nat :=
  (List.range 24).map fun (i : Nat) => ((((currentHour : Int) - (i : Int)) % 24).toNat)

/-- The comprehension data_for_hour: rows whose strptime(timestamp).hour
equals the target hour; none models a timestamp parse failure. -/
def rowsForHour (rows : List CsvRow) (hour : Nat) : Option (List CsvRow) :=
  match rows with
  | [] => some []
  | r :: rest => do
    let dt ← parseTimestamp r.timestamp
    let tail ← rowsForHour rest hour
    pure (if dt.hour = hour then r :: tail else tail)

/-- The comprehensions pm2_5_values / pm10_values: float() applied to one
field of every bucket row; none models a ValueError on a malformed field. -/
def parseVals (f : CsvRow → String) : List CsvRow → Option (List ℚ)
  | [] => some []
  | r :: rest => do
    let v ← parseFloat (f r)
    let tail ← parseVals f rest
    pure (v :: tail)

/-- One loop iteration of caluclate_avg_aq_per_hour: the bucket of a target
hour and its two averages, each NO DATA when its value list is empty. -/
def hourEntry (rows : List CsvRow) (hour : Nat) : Option HourEntry := do
  let bucket ← rowsForHour rows hour
  let pm25 ← parseVals CsvRow.pm2_5 bucket
  let pm10 ← parseVals CsvRow.pm10 bucket
  pure ⟨if pm25.length ≠ 0 then .num (pm25.sum / pm25.length) else .noData,
        if pm10.length ≠ 0 then .num (pm10.sum / pm10.length) else .noData⟩

/-- The report dict avg_aq_per_hour in insertion order: one (str(hour),
entry) pair per enumerated target hour. -/
def buildReport (rows : List CsvRow) : List Nat → Option (List (String × HourEntry))
  | [] => some []
  | h :: t => do
    let e ← hourEntry rows h
    let rest ← buildReport rows t
    pure ((toString h, e) :: rest)

/-- Task caluclate_avg_aq_per_hour: the averages for the 24 target hours
derived from the run timestamp's hour, keyed by str(hour), in enumeration
order. -/
def caluclate_avg_aq_per_hour (rows : List CsvRow) (t : PyDateTime) :
    Option (List (String × HourEntry)) :=
  buildReport rows (last24Hours t.hour)

/-- Rendering of one average inside the log f-string: the number itself, or
the stored literal string NO DATA. -/
def renderVal : AqValue → String
  | .num v => toString v
  | .noData => "NO DATA"

/-- The body of send_aq_report's loop for one dict entry. -/
def reportLine (day : String) (e : String × HourEntry) : String :=
  "Day " ++ day ++ " Hour " ++ e.1 ++ ": PM2.5: " ++ renderVal e.2.avg_pm2_5
    ++ ", PM10: " ++ renderVal e.2.avg_pm10

/-- Task send_aq_report: one log line per report entry, in the dict's
iteration order. -/
def send_aq_report (report : List (String × HourEntry)) (day : String) :
    List String :=
  report.map (reportLine day)

/-- The run's date as the code derives it: context["ts"].split("T")[0], the
prefix of the timestamp string before its first T. -/
def dayOf (tsStr : String) : String :=
  (tsStr.toList.takeWhile (fun c => c ≠ 'T')).asString

/-- One run of the create_aq_report dag: the three tasks in sequence; a skip
or a raised error in a task ends the run with that outcome, and lines are
produced only by the final task of a successful run. -/
def create_aq_report_run (tsStr : String) (source : Option (List CsvRow)) :
    RunOutcome (List String) :=
  match get_aq_data_last_day tsStr source with
  | .skipped => .skipped
  | .failed => .failed
  | .success rows =>
    match parseTimestamp tsStr with
    | none => .failed
    | some t =>
      match caluclate_avg_aq_per_hour rows t with
      | none => .failed
      | some report => .success (send_aq_report report (dayOf tsStr))

/-- The lines actually delivered to the log sink: those of a successful run,
none otherwise. -/
def emittedLines : RunOutcome (List String) → List String
  | .success ls => ls
  | _ => []

/-- Boolean form of the extractor's row test: the row's timestamp parses and
its instant is at or after the cutoff. -/
def inWindow (cutoff : Int) (r : CsvRow) : Bool :=
  match parseTimestamp r.timestamp with
  | some dt => decide (cutoff ≤ dt.toEpochSeconds)
  | none => false

/-- Boolean form of the aggregator's bucket test: the row's timestamp parses
and its hour-of-day equals the target hour. -/
def inBucket (hour : Nat) (r : CsvRow) : Bool :=
  match parseTimestamp r.timestamp with
  | some dt => dt.hour == hour
  | none => false

lemma keepLastDay_eq_filter (c : Int) (rows : List CsvRow) :
    ∀ res, keepLastDay c rows = some res → res = rows.filter (inWindow c) := by
  induction rows with
  | nil =>
    intro res h
    simp only [keepLastDay, Option.some.injEq] at h
    simp [← h]
  | cons r rest ih =>
    intro res h
    simp only [keepLastDay] at h
    cases hp : parseTimestamp r.timestamp with
    | none => rw [hp] at h; simp at h
    | some dt =>
      rw [hp] at h
      cases hk : keepLastDay c rest with
      | none => rw [hk] at h; simp at h
      | some tail =>
        rw [hk] at h
        simp only [Option.bind_eq_bind, Option.pure_def, Option.some_bind, Option.some.injEq] at h
        have hw : inWindow c r = decide (c ≤ dt.toEpochSeconds) := by
          unfold inWindow
          rw [hp]
        subst h
        rw [List.filter_cons, hw, ih tail hk]
        by_cases hc : c ≤ dt.toEpochSeconds
        · simp [hc]
        · simp [hc]

lemma keepLastDay_none (c : Int) (rows : List CsvRow) (r : CsvRow)
    (hr : r ∈ rows) (hp : parseTimestamp r.timestamp = none) :
    keepLastDay c rows = none := by
  induction rows with
  | nil => cases hr
  | cons a rest ih =>
    simp only [keepLastDay]
    rcases List.mem_cons.mp hr with h | h
    · subst h; rw [hp]; rfl
    · cases hpa : parseTimestamp a.timestamp with
      | none => rfl
      | some dt => rw [ih h]; rfl

lemma rowsForHour_eq_filter (hour : Nat) (rows : List CsvRow) :
    ∀ res, rowsForHour rows hour = some res → res = rows.filter (inBucket hour) := by
  induction rows with
  | nil =>
    intro res h
    simp only [rowsForHour, Option.some.injEq] at h
    simp [← h]
  | cons r rest ih =>
    intro res h
    simp only [rowsForHour] at h
    cases hp : parseTimestamp r.timestamp with
    | none => rw [hp] at h; simp at h
    | some dt =>
      rw [hp] at h
      cases hk : rowsForHour rest hour with
      | none => rw [hk] at h; simp at h
      | some tail =>
        rw [hk] at h
        simp only [Option.bind_eq_bind, Option.pure_def, Option.some_bind, Option.some.injEq] at h
        have hw : inBucket hour r = (dt.hour == hour) := by
          unfold inBucket
          rw [hp]
        subst h
        rw [List.filter_cons, hw, ih tail hk]
        by_cases hc : dt.hour = hour
        · simp [hc]
        · simp [hc]

lemma rowsForHour_of_allParse (hour : Nat) (rows : List CsvRow)
    (hall : ∀ r ∈ rows, (parseTimestamp r.timestamp).isSome) :
    rowsForHour rows hour = some (rows.filter (inBucket hour)) := by
  induction rows with
  | nil => rfl
  | cons r rest ih =>
    have hr : (parseTimestamp r.timestamp).isSome := hall r (List.mem_cons_self r rest)
    cases hp : parseTimestamp r.timestamp with
    | none => rw [hp] at hr; cases hr
    | some dt =>
      have ihs := ih (fun x hx => hall x (List.mem_cons_of_mem r hx))
      simp only [rowsForHour, hp, ihs, Option.some_bind, List.filter_cons]
      unfold inBucket
      rw [hp]
      by_cases hc : dt.hour = hour
      · simp [hc]
      · simp [hc]

lemma rowsForHour_allParse (hour : Nat) (rows : List CsvRow) (res : List CsvRow)
    (h : rowsForHour rows hour = some res) :
    ∀ r ∈ rows, (parseTimestamp r.timestamp).isSome := by
  induction rows generalizing res with
  | nil => intro r hr; cases hr
  | cons a rest ih =>
    intro r hr
    simp only [rowsForHour] at h
    cases hp : parseTimestamp a.timestamp with
    | none => rw [hp] at h; simp at h
    | some dt =>
      rw [hp] at h
      cases hk : rowsForHour rest hour with
      | none => rw [hk] at h; simp at h
      | some tail =>
        rcases List.mem_cons.mp hr with hre | hre
        · subst hre; simp [hp]
        · exact ih tail hk r hre

lemma parseVals_length (f : CsvRow → String) (rows : List CsvRow) :
    ∀ vs, parseVals f rows = some vs → vs.length = rows.length := by
  induction rows with
  | nil =>
    intro vs h
    simp only [parseVals, Option.some.injEq] at h
    simp [← h]
  | cons r rest ih =>
    intro vs h
    simp only [parseVals] at h
    cases hp : parseFloat (f r) with
    | none => rw [hp] at h; simp at h
    | some v =>
      rw [hp] at h
      cases hk : parseVals f rest with
      | none => rw [hk] at h; simp at h
      | some tail =>
        rw [hk] at h
        simp only [Option.bind_eq_bind, Option.pure_def, Option.some_bind, Option.some.injEq] at h
        simp [← h, ih tail hk]

lemma parseVals_none (f : CsvRow → String) (rows : List CsvRow) (r : CsvRow)
    (hr : r ∈ rows) (hp : parseFloat (f r) = none) :
    parseVals f rows = none := by
  induction rows with
  | nil => cases hr
  | cons a rest ih =>
    simp only [parseVals]
    rcases List.mem_cons.mp hr with h | h
    · subst h; rw [hp]; rfl
    · cases hpa : parseFloat (f a) with
      | none => rfl
      | some v => rw [ih h]; rfl

lemma last24Hours_length (c : Nat) : (last24Hours c).length = 24 := by
  simp [last24Hours]

lemma mem_last24Hours (c h : Nat) : h ∈ last24Hours c ↔ h < 24 := by
  unfold last24Hours
  simp only [List.mem_map, List.mem_range]
  constructor
  · rintro ⟨i, hi, rfl⟩
    omega
  · intro hh
    refine ⟨((((c : Int) - (h : Int)) % 24).toNat), ?_, ?_⟩
    · omega
    · omega

lemma last24Hours_nodup (c : Nat) : (last24Hours c).Nodup := by
  unfold last24Hours
  refine (List.nodup_range 24).map_on ?_
  intro i hi j hj hij
  rw [List.mem_range] at hi hj
  omega

lemma last24Hours_perm (c : Nat) : (last24Hours c).Perm (List.range 24) := by
  have hsub : last24Hours c ⊆ List.range 24 := by
    intro x hx
    rw [List.mem_range]
    exact (mem_last24Hours c x).mp hx
  refine ((last24Hours_nodup c).subperm hsub).perm_of_length_le ?_
  simp [last24Hours_length]

lemma parseTimestamp_hour_le (s : String) (dt : PyDateTime)
    (h : parseTimestamp s = some dt) : dt.hour ≤ 23 := by
  unfold parseTimestamp at h
  split at h
  · simp only [Option.bind_eq_bind, Option.bind_eq_some] at h
    obtain ⟨y, hy, mo, hmo, da, hda, ho, hho, mi, hmi, se, hse,
      oh, hoh, om, hom, sgn, hsgn, hfin⟩ := h
    split at hfin
    · next hcond =>
      obtain ⟨_, _, _, _, _, h23, _⟩ := hcond
      cases hfin
      exact h23
    · cases hfin
  · cases h

lemma buildReport_keys (rows : List CsvRow) (hs : List Nat) :
    ∀ rep, buildReport rows hs = some rep → rep.map Prod.fst = hs.map toString := by
  induction hs with
  | nil =>
    intro rep h
    simp only [buildReport, Option.some.injEq] at h
    simp [← h]
  | cons a t ih =>
    intro rep h
    simp only [buildReport] at h
    cases he : hourEntry rows a with
    | none => rw [he] at h; simp at h
    | some e =>
      rw [he] at h
      cases hb : buildReport rows t with
      | none => rw [hb] at h; simp at h
      | some rest =>
        rw [hb] at h
        simp only [Option.bind_eq_bind, Option.pure_def, Option.some_bind,
          Option.some.injEq] at h
        subst h
        simp [ih rest hb]

lemma buildReport_entries (rows : List CsvRow) (hs : List Nat) :
    ∀ rep, buildReport rows hs = some rep →
      ∀ p ∈ rep, ∃ h ∈ hs, p.1 = toString h ∧ hourEntry rows h = some p.2 := by
  induction hs with
  | nil =>
    intro rep h
    simp only [buildReport, Option.some.injEq] at h
    intro p hp
    rw [← h] at hp
    cases hp
  | cons a t ih =>
    intro rep h
    simp only [buildReport] at h
    cases he : hourEntry rows a with
    | none => rw [he] at h; simp at h
    | some e =>
      rw [he] at h
      cases hb : buildReport rows t with
      | none => rw [hb] at h; simp at h
      | some rest =>
        rw [hb] at h
        simp only [Option.bind_eq_bind, Option.pure_def, Option.some_bind,
          Option.some.injEq] at h
        subst h
        intro p hp
        rcases List.mem_cons.mp hp with hpe | hpe
        · subst hpe
          exact ⟨a, List.mem_cons_self a t, rfl, he⟩
        · obtain ⟨hh, hht, hk, hent⟩ := ih rest hb p hpe
          exact ⟨hh, List.mem_cons_of_mem a hht, hk, hent⟩

lemma buildReport_none (rows : List CsvRow) (hs : List Nat) (a : Nat)
    (ha : a ∈ hs) (he : hourEntry rows a = none) :
    buildReport rows hs = none := by
  induction hs with
  | nil => cases ha
  | cons b t ih =>
    simp only [buildReport]
    rcases List.mem_cons.mp ha with h | h
    · subst h
      rw [he]
      rfl
    · cases hb : hourEntry rows b with
      | none => rfl
      | some e =>
        rw [ih h]
        rfl

lemma hourEntry_spec (rows : List CsvRow) (hour : Nat) (e : HourEntry)
    (h : hourEntry rows hour = some e) :
    ∃ bucket pm25 pm10v,
      rowsForHour rows hour = some bucket ∧
      parseVals CsvRow.pm2_5 bucket = some pm25 ∧
      parseVals CsvRow.pm10 bucket = some pm10v ∧
      e.avg_pm2_5 =
        (if pm25.length ≠ 0 then .num (pm25.sum / pm25.length) else .noData) ∧
      e.avg_pm10 =
        (if pm10v.length ≠ 0 then .num (pm10v.sum / pm10v.length) else .noData) := by
  unfold hourEntry at h
  simp only [Option.bind_eq_bind, Option.pure_def, Option.bind_eq_some,
    Option.some.injEq] at h
  obtain ⟨bucket, hb, pm25, h25, pm10v, h10, hfin⟩ := h
  refine ⟨bucket, pm25, pm10v, hb, h25, h10, ?_, ?_⟩
  · rw [← hfin]
  · rw [← hfin]

lemma hourEntry_none_of_bad (rows : List CsvRow) (hour : Nat) (r : CsvRow)
    (dt : PyDateTime) (hr : r ∈ rows) (hp : parseTimestamp r.timestamp = some dt)
    (hhr : dt.hour = hour)
    (hbad : parseFloat r.pm2_5 = none ∨ parseFloat r.pm10 = none) :
    hourEntry rows hour = none := by
  unfold hourEntry
  cases hb : rowsForHour rows hour with
  | none => rfl
  | some bucket =>
    have hbf := rowsForHour_eq_filter hour rows bucket hb
    have hrb : r ∈ bucket := by
      rw [hbf]
      refine List.mem_filter.mpr ⟨hr, ?_⟩
      unfold inBucket
      rw [hp]
      simp [hhr]
    simp only [Option.bind_eq_bind, Option.some_bind]
    rcases hbad with hbad | hbad
    · rw [parseVals_none CsvRow.pm2_5 bucket r hrb hbad]
      rfl
    · cases h25 : parseVals CsvRow.pm2_5 bucket with
      | none => rfl
      | some vs =>
        rw [parseVals_none CsvRow.pm10 bucket r hrb hbad]
        rfl

lemma toString_nat_inj_24 : ∀ a ∈ List.range 24, ∀ b ∈ List.range 24,
    toString a = toString b → a = b := by decide

lemma reportKeys_nodup (c : Nat) : ((last24Hours c).map toString).Nodup := by
  refine (last24Hours_nodup c).map_on ?_
  intro x hx y hy hxy
  exact toString_nat_inj_24 x
    (List.mem_range.mpr ((mem_last24Hours c x).mp hx)) y
    (List.mem_range.mpr ((mem_last24Hours c y).mp hy)) hxy

lemma parseFloat_lit_5 : parseFloat "5.0" = some 5 := by
  have h : parseFloat "5.0" =
      some (((5 : Nat) : ℚ) + ((0 : Nat) : ℚ) / 10 ^ (1 : Nat)) := rfl
  rw [h]
  norm_num

lemma parseFloat_lit_10 : parseFloat "10.0" = some 10 := by
  have h : parseFloat "10.0" =
      some (((10 : Nat) : ℚ) + ((0 : Nat) : ℚ) / 10 ^ (1 : Nat)) := rfl
  rw [h]
  norm_num

lemma parseFloat_lit_20 : parseFloat "20.0" = some 20 := by
  have h : parseFloat "20.0" =
      some (((20 : Nat) : ℚ) + ((0 : Nat) : ℚ) / 10 ^ (1 : Nat)) := rfl
  rw [h]
  norm_num

lemma parseFloat_lit_30 : parseFloat "30.0" = some 30 := by
  have h : parseFloat "30.0" =
      some (((30 : Nat) : ℚ) + ((0 : Nat) : ℚ) / 10 ^ (1 : Nat)) := rfl
  rw [h]
  norm_num

/-- The Window of the spec's aggregation scenario: readings at 15:00, 15:30
and 16:00 of one day. -/
def c2Rows : List CsvRow :=
  [⟨"2025-01-01T15:00:00+00:00", "10.0", "20.0"⟩,
   ⟨"2025-01-01T15:30:00+00:00", "20.0", "30.0"⟩,
   ⟨"2025-01-01T16:00:00+00:00", "5.0", "5.0"⟩]

/-- A run time whose hour is 16, for the aggregation scenario. -/
def c2Ts : PyDateTime := ⟨2025, 1, 1, 16, 0, 0, 0⟩

/-- The 22 target hours after 16 and 15, in enumeration order. -/
def c2TailHours : List Nat :=
  [14, 13, 12, 11, 10, 9, 8, 7, 6, 5, 4, 3, 2, 1, 0, 23, 22, 21, 20, 19, 18, 17]

/-- The scenario's expected report: hour 16 first with averages 5 and 5,
hour 15 with averages 15 and 25, and NO DATA everywhere else. -/
def c2Report : List (String × HourEntry) :=
  ("16", ⟨.num 5, .num 5⟩) :: ("15", ⟨.num 15, .num 25⟩) ::
    c2TailHours.map (fun h => (toString h, ⟨.noData, .noData⟩))

lemma hourEntry_c2_16 : hourEntry c2Rows 16 = some ⟨.num 5, .num 5⟩ := by
  have hb : rowsForHour c2Rows 16 =
      some [⟨"2025-01-01T16:00:00+00:00", "5.0", "5.0"⟩] := by decide
  simp only [hourEntry, hb, Option.bind_eq_bind, Option.some_bind, parseVals,
    parseFloat_lit_5, List.length_cons, List.length_nil, List.sum_cons,
    List.sum_nil, Option.pure_def]
  norm_num

lemma hourEntry_c2_15 : hourEntry c2Rows 15 = some ⟨.num 15, .num 25⟩ := by
  have hb : rowsForHour c2Rows 15 =
      some [⟨"2025-01-01T15:00:00+00:00", "10.0", "20.0"⟩,
            ⟨"2025-01-01T15:30:00+00:00", "20.0", "30.0"⟩] := by decide
  simp only [hourEntry, hb, Option.bind_eq_bind, Option.some_bind, parseVals,
    parseFloat_lit_10, parseFloat_lit_20, parseFloat_lit_30, List.length_cons,
    List.length_nil, List.sum_cons, List.sum_nil, Option.pure_def]
  norm_num

lemma c2_scenario : caluclate_avg_aq_per_hour c2Rows c2Ts = some c2Report := by
  have h24 : last24Hours c2Ts.hour = 16 :: 15 :: c2TailHours := by decide
  have htail : buildReport c2Rows c2TailHours =
      some (c2TailHours.map (fun h => (toString h, ⟨.noData, .noData⟩))) := by
    decide
  unfold caluclate_avg_aq_per_hour
  rw [h24]
  simp only [buildReport, hourEntry_c2_16, hourEntry_c2_15, htail,
    Option.bind_eq_bind, Option.some_bind, Option.pure_def, Option.some.injEq]
  rfl

/-- The report a run with an empty window produces: every target hour of the
enumeration mapped to NO DATA for both measures. -/
def noDataReport (c : Nat) : List (String × HourEntry) :=
  (last24Hours c).map (fun h => (toString h, ⟨.noData, .noData⟩))

/-- C1: for every run time and every window (including the empty one), a
report the aggregator produces has exactly 24 entries; its keys are pairwise
distinct; every hour-of-day 0-23 occurs as a key (an hour with no matching
readings still gets an entry, rather than a missing key); and the key list is
a permutation of str(0)..str(23). -/
theorem C1_report_always_24_entries (rows : List CsvRow) (t : PyDateTime)
    (report : List (String × HourEntry))
    (h : caluclate_avg_aq_per_hour rows t = some report) :
    report.length = 24 ∧
    (report.map Prod.fst).Nodup ∧
    (∀ hr : Nat, hr < 24 → ∃ e, (toString hr, e) ∈ report) ∧
    (report.map Prod.fst).Perm ((List.range 24).map toString) := by
  have hk := buildReport_keys rows (last24Hours t.hour) report h
  refine ⟨?_, ?_, ?_, ?_⟩
  · have hl := congrArg List.length hk
    rwa [List.length_map, List.length_map, last24Hours_length] at hl
  · rw [hk]
    exact reportKeys_nodup t.hour
  · intro hr hhr
    have hmem : toString hr ∈ report.map Prod.fst := by
      rw [hk]
      exact List.mem_map.mpr ⟨hr, (mem_last24Hours t.hour hr).mpr hhr, rfl⟩
    obtain ⟨p, hp, hp1⟩ := List.mem_map.mp hmem
    refine ⟨p.2, ?_⟩
    rw [← hp1, Prod.mk.eta]
    exact hp
  · rw [hk]
    exact (last24Hours_perm t.hour).map toString

/-- Witness for C1 at the empty window and a run time of hour 16. -/
theorem C1_witness :
    (noDataReport 16).length = 24 ∧
    ((noDataReport 16).map Prod.fst).Nodup ∧
    (∀ hr : Nat, hr < 24 → ∃ e, (toString hr, e) ∈ noDataReport 16) ∧
    ((noDataReport 16).map Prod.fst).Perm ((List.range 24).map toString) :=
  C1_report_always_24_entries [] ⟨2025, 1, 1, 16, 0, 0, 0⟩ (noDataReport 16)
    (by decide)

/-- C2: a bucket is exactly the window rows whose hour-of-day (date ignored)
equals the target hour; an empty bucket yields NO DATA for both measures and a
nonempty one yields sum divided by count for each measure; and the spec's
scenario (readings at 15:00, 15:30, 16:00, run hour 16) produces averages
15 and 25 for hour 15, 5 and 5 for hour 16, and NO DATA for the other 22
hours. -/
theorem C2_bucket_selection_and_averages :
    (∀ (rows : List CsvRow) (hour : Nat) (bucket : List CsvRow),
      rowsForHour rows hour = some bucket →
      bucket = rows.filter (inBucket hour)) ∧
    (∀ (rows : List CsvRow) (hour : Nat) (e : HourEntry),
      hourEntry rows hour = some e →
      ∃ bucket pm25 pm10v,
        rowsForHour rows hour = some bucket ∧
        parseVals CsvRow.pm2_5 bucket = some pm25 ∧
        parseVals CsvRow.pm10 bucket = some pm10v ∧
        pm25.length = bucket.length ∧
        pm10v.length = bucket.length ∧
        (bucket = [] → e.avg_pm2_5 = .noData ∧ e.avg_pm10 = .noData) ∧
        (bucket ≠ [] →
          e.avg_pm2_5 = .num (pm25.sum / pm25.length) ∧
          e.avg_pm10 = .num (pm10v.sum / pm10v.length))) ∧
    caluclate_avg_aq_per_hour c2Rows c2Ts = some c2Report := by
  refine ⟨?_, ?_, c2_scenario⟩
  · intro rows hour bucket hb
    exact rowsForHour_eq_filter hour rows bucket hb
  · intro rows hour e he
    obtain ⟨bucket, pm25, pm10v, hb, h25, h10, he25, he10⟩ :=
      hourEntry_spec rows hour e he
    have l25 := parseVals_length CsvRow.pm2_5 bucket pm25 h25
    have l10 := parseVals_length CsvRow.pm10 bucket pm10v h10
    refine ⟨bucket, pm25, pm10v, hb, h25, h10, l25, l10, ?_, ?_⟩
    · intro hbe
      subst hbe
      simp only [List.length_nil] at l25 l10
      rw [he25, he10]
      simp [l25, l10]
    · intro hbne
      have hlen : bucket.length ≠ 0 := by
        intro h0
        exact hbne (List.length_eq_zero.mp h0)
      rw [he25, he10]
      rw [if_pos (by omega : pm25.length ≠ 0), if_pos (by omega : pm10v.length ≠ 0)]
      exact ⟨rfl, rfl⟩

/-- Witness for C2: the bucket of hour 15 for the scenario window. -/
theorem C2_witness :
    ([⟨"2025-01-01T15:00:00+00:00", "10.0", "20.0"⟩,
      ⟨"2025-01-01T15:30:00+00:00", "20.0", "30.0"⟩] : List CsvRow) =
      c2Rows.filter (inBucket 15) :=
  C2_bucket_selection_and_averages.1 c2Rows 15 _ (by decide)

/-- C3: the extractor keeps exactly the order-preserving subsequence of rows
with timestamp at or after run_time - 23h: a successful filter result is the
filter by the cutoff test (a sublist of the input), the cutoff test is the
inclusive instant comparison, the cutoff of run time 2025-01-02T10:00:00+00:00
is the instant 2025-01-01T11:00:00+00:00, and on that run a reading at
2025-01-01T10:59:59+00:00 is excluded while one at 2025-01-01T11:00:00+00:00
is included. -/
theorem C3_window_is_cutoff_filter :
    (∀ (cutoff : Int) (rows res : List CsvRow),
      keepLastDay cutoff rows = some res →
      res = rows.filter (inWindow cutoff) ∧ res.Sublist rows) ∧
    (∀ (c : Int) (r : CsvRow) (dt : PyDateTime),
      parseTimestamp r.timestamp = some dt →
      (inWindow c r = true ↔ c ≤ dt.toEpochSeconds)) ∧
    (∀ (tsStr : String) (t : PyDateTime) (rows res : List CsvRow),
      parseTimestamp tsStr = some t →
      get_aq_data_last_day tsStr (some rows) = .success res →
      res = rows.filter (inWindow (t.toEpochSeconds - 23 * 3600))) ∧
    ((parseTimestamp "2025-01-02T10:00:00+00:00").map
        (fun t => t.toEpochSeconds - 23 * 3600) =
      (parseTimestamp "2025-01-01T11:00:00+00:00").map PyDateTime.toEpochSeconds) ∧
    get_aq_data_last_day "2025-01-02T10:00:00+00:00"
      (some [⟨"2025-01-01T10:59:59+00:00", "1.0", "2.0"⟩,
             ⟨"2025-01-01T11:00:00+00:00", "3.0", "4.0"⟩]) =
      .success [⟨"2025-01-01T11:00:00+00:00", "3.0", "4.0"⟩] := by
  refine ⟨?_, ?_, ?_, by decide, by decide⟩
  · intro cutoff rows res h
    have hf := keepLastDay_eq_filter cutoff rows res h
    refine ⟨hf, ?_⟩
    rw [hf]
    exact List.filter_sublist rows
  · intro c r dt hp
    unfold inWindow
    rw [hp]
    simp
  · intro tsStr t rows res ht h
    unfold get_aq_data_last_day at h
    simp only [ht] at h
    cases hk : keepLastDay (t.toEpochSeconds - 23 * 3600) rows with
    | none =>
      simp only [hk] at h
      exact RunOutcome.noConfusion h
    | some res2 =>
      simp only [hk] at h
      cases h
      exact keepLastDay_eq_filter _ rows _ hk

/-- Witness for C3: the scenario filter at the concrete cutoff instant. -/
theorem C3_witness :
    ([⟨"2025-01-01T11:00:00+00:00", "3.0", "4.0"⟩] : List CsvRow) =
      ([⟨"2025-01-01T10:59:59+00:00", "1.0", "2.0"⟩,
        ⟨"2025-01-01T11:00:00+00:00", "3.0", "4.0"⟩] : List CsvRow).filter
        (inWindow 1735729200) ∧
    ([⟨"2025-01-01T11:00:00+00:00", "3.0", "4.0"⟩] : List CsvRow).Sublist
      [⟨"2025-01-01T10:59:59+00:00", "1.0", "2.0"⟩,
       ⟨"2025-01-01T11:00:00+00:00", "3.0", "4.0"⟩] :=
  C3_window_is_cutoff_filter.1 1735729200 _ _ (by decide)

/-- C4: when the source file is absent the run ends with the distinct skip
outcome - not success, not failure - the later stages produce nothing, and
zero lines are emitted. -/
theorem C4_missing_source_skips (tsStr : String) (t : PyDateTime)
    (h : parseTimestamp tsStr = some t) :
    get_aq_data_last_day tsStr none = .skipped ∧
    create_aq_report_run tsStr none = .skipped ∧
    emittedLines (create_aq_report_run tsStr none) = [] := by
  have h1 : get_aq_data_last_day tsStr none = .skipped := by
    unfold get_aq_data_last_day
    rw [h]
  have h2 : create_aq_report_run tsStr none = .skipped := by
    unfold create_aq_report_run
    rw [h1]
  refine ⟨h1, h2, ?_⟩
  rw [h2]
  rfl

/-- Witness for C4 at a concrete run timestamp. -/
theorem C4_witness :
    get_aq_data_last_day "2025-01-01T00:00:00+00:00" none = .skipped ∧
    create_aq_report_run "2025-01-01T00:00:00+00:00" none = .skipped ∧
    emittedLines (create_aq_report_run "2025-01-01T00:00:00+00:00" none) = [] :=
  C4_missing_source_skips "2025-01-01T00:00:00+00:00" ⟨2025, 1, 1, 0, 0, 0, 0⟩
    (by decide)

/-- C5: the report's iteration order is reverse-chronological: its key list
is str((current_hour - i) mod 24) for i = 0..23 in that order, the current
hour's entry comes first, and the emitter emits exactly one line per entry in
that same order. -/
theorem C5_report_reverse_chronological (rows : List CsvRow) (t : PyDateTime)
    (report : List (String × HourEntry)) (day : String)
    (h : caluclate_avg_aq_per_hour rows t = some report) :
    report.map Prod.fst =
      (List.range 24).map
        (fun (i : Nat) => toString ((((t.hour : Int) - (i : Int)) % 24).toNat)) ∧
    (t.hour < 24 → (report.map Prod.fst).head? = some (toString t.hour)) ∧
    send_aq_report report day = report.map (reportLine day) := by
  have hk := buildReport_keys rows (last24Hours t.hour) report h
  have hk2 : report.map Prod.fst =
      (List.range 24).map
        (fun (i : Nat) => toString ((((t.hour : Int) - (i : Int)) % 24).toNat)) := by
    rw [hk]
    unfold last24Hours
    rw [List.map_map]
    rfl
  refine ⟨hk2, ?_, rfl⟩
  intro hlt
  rw [hk2, List.head?_map]
  rw [show (List.range 24).head? = some 0 from by decide]
  have hv : ((((t.hour : Nat) : Int) - ((0 : Nat) : Int)) % 24).toNat = t.hour := by
    omega
  simp only [Option.map_some', hv]

/-- Witness for C5 at the empty window and run hour 7. -/
theorem C5_witness :
    (noDataReport 7).map Prod.fst =
      (List.range 24).map
        (fun (i : Nat) => toString (((((7 : Nat) : Int) - (i : Int)) % 24).toNat)) ∧
    ((noDataReport 7).map Prod.fst).head? = some (toString (7 : Nat)) ∧
    send_aq_report (noDataReport 7) "2025-01-01" =
      (noDataReport 7).map (reportLine "2025-01-01") :=
  ⟨(C5_report_reverse_chronological [] ⟨2025, 1, 1, 7, 0, 0, 0⟩ (noDataReport 7)
      "2025-01-01" (by decide)).1,
   (C5_report_reverse_chronological [] ⟨2025, 1, 1, 7, 0, 0, 0⟩ (noDataReport 7)
      "2025-01-01" (by decide)).2.1 (by decide),
   (C5_report_reverse_chronological [] ⟨2025, 1, 1, 7, 0, 0, 0⟩ (noDataReport 7)
      "2025-01-01" (by decide)).2.2⟩

/-- C6 as written is false on the code: a row whose pm2_5 field fails float
parsing but whose timestamp lies before the 23h cutoff is dropped by the
extractor before any numeric parsing, so the run succeeds and emits all 24
lines. -/
theorem C6_counterexample :
    parseFloat "abc" = none ∧
    create_aq_report_run "2025-06-01T12:00:00+00:00"
      (some [⟨"2020-01-01T00:00:00+00:00", "abc", "1.0"⟩]) =
      .success (send_aq_report (noDataReport 12) "2025-06-01") ∧
    (emittedLines (create_aq_report_run "2025-06-01T12:00:00+00:00"
      (some [⟨"2020-01-01T00:00:00+00:00", "abc", "1.0"⟩]))).length = 24 :=
  ⟨by decide, by decide, by decide⟩

/-- C6 amended: a row with an unparseable timestamp aborts the whole run as a
failure with zero lines emitted; a row inside the 23h window with an
unparseable pm2_5 or pm10 field likewise aborts the run with zero lines
emitted (rows outside the window never have their numeric fields parsed). -/
theorem C6_amended_abort_on_malformed (tsStr : String) (t : PyDateTime)
    (data : List CsvRow) (r : CsvRow)
    (ht : parseTimestamp tsStr = some t) (hr : r ∈ data) :
    (parseTimestamp r.timestamp = none →
      create_aq_report_run tsStr (some data) = .failed ∧
      emittedLines (create_aq_report_run tsStr (some data)) = []) ∧
    (∀ dt : PyDateTime, parseTimestamp r.timestamp = some dt →
      t.toEpochSeconds - 23 * 3600 ≤ dt.toEpochSeconds →
      (parseFloat r.pm2_5 = none ∨ parseFloat r.pm10 = none) →
      create_aq_report_run tsStr (some data) = .failed ∧
      emittedLines (create_aq_report_run tsStr (some data)) = []) := by
  constructor
  · intro hpnone
    have hkeep : keepLastDay (t.toEpochSeconds - 23 * 3600) data = none :=
      keepLastDay_none _ data r hr hpnone
    have hrun : create_aq_report_run tsStr (some data) = .failed := by
      unfold create_aq_report_run get_aq_data_last_day
      simp only [ht, hkeep]
    refine ⟨hrun, ?_⟩
    rw [hrun]
    rfl
  · intro dt hpdt hcut hbad
    cases hkeep : keepLastDay (t.toEpochSeconds - 23 * 3600) data with
    | none =>
      have hrun : create_aq_report_run tsStr (some data) = .failed := by
        unfold create_aq_report_run get_aq_data_last_day
        simp only [ht, hkeep]
      refine ⟨hrun, ?_⟩
      rw [hrun]
      rfl
    | some rows =>
      have hget : get_aq_data_last_day tsStr (some data) = .success rows := by
        unfold get_aq_data_last_day
        simp only [ht, hkeep]
      have hrowsf := keepLastDay_eq_filter _ data rows hkeep
      have hrw : r ∈ rows := by
        rw [hrowsf]
        refine List.mem_filter.mpr ⟨hr, ?_⟩
        unfold inWindow
        rw [hpdt]
        simpa using hcut
      have h23 := parseTimestamp_hour_le _ _ hpdt
      have hmem : dt.hour ∈ last24Hours t.hour :=
        (mem_last24Hours _ _).mpr (by omega)
      have hent : hourEntry rows dt.hour = none :=
        hourEntry_none_of_bad rows dt.hour r dt hrw hpdt rfl hbad
      have hagg : caluclate_avg_aq_per_hour rows t = none := by
        unfold caluclate_avg_aq_per_hour
        exact buildReport_none rows _ dt.hour hmem hent
      have hrun : create_aq_report_run tsStr (some data) = .failed := by
        unfold create_aq_report_run
        simp only [hget, ht, hagg]
      refine ⟨hrun, ?_⟩
      rw [hrun]
      rfl

/-- Witness for the amended C6: a row whose timestamp does not parse makes
the whole run fail with no lines. -/
theorem C6_amended_witness :
    create_aq_report_run "2025-06-01T12:00:00+00:00"
      (some [⟨"garbage", "1.0", "2.0"⟩]) = .failed ∧
    emittedLines (create_aq_report_run "2025-06-01T12:00:00+00:00"
      (some [⟨"garbage", "1.0", "2.0"⟩])) = [] :=
  (C6_amended_abort_on_malformed "2025-06-01T12:00:00+00:00"
      ⟨2025, 6, 1, 12, 0, 0, 0⟩ [⟨"garbage", "1.0", "2.0"⟩]
      ⟨"garbage", "1.0", "2.0"⟩ (by decide) (by decide)).1 (by decide)

/-- C7: a successful run emits exactly one line per report entry, in report
order, each line being Day date, Hour key, and the two averages, where an
empty bucket's average renders as the literal text NO DATA. -/
theorem C7_emitter_line_format (tsStr : String) (t : PyDateTime)
    (source : Option (List CsvRow)) (rows : List CsvRow)
    (report : List (String × HourEntry)) (lines : List String)
    (h1 : parseTimestamp tsStr = some t)
    (hget : get_aq_data_last_day tsStr source = .success rows)
    (hagg : caluclate_avg_aq_per_hour rows t = some report)
    (h2 : create_aq_report_run tsStr source = .success lines) :
    lines.length = report.length ∧
    lines = report.map (fun e =>
      "Day " ++ dayOf tsStr ++ " Hour " ++ e.1 ++ ": PM2.5: " ++
        renderVal e.2.avg_pm2_5 ++ ", PM10: " ++ renderVal e.2.avg_pm10) ∧
    renderVal .noData = "NO DATA" := by
  unfold create_aq_report_run at h2
  simp only [hget, h1, hagg] at h2
  injection h2 with hl
  refine ⟨?_, ?_, rfl⟩
  · rw [← hl]
    simp [send_aq_report]
  · rw [← hl]
    rfl

/-- Witness for C7 at the empty source list and run hour 5. -/
theorem C7_witness :
    (send_aq_report (noDataReport 5) "2025-01-01").length =
      (noDataReport 5).length ∧
    send_aq_report (noDataReport 5) "2025-01-01" =
      (noDataReport 5).map (fun e =>
        "Day " ++ dayOf "2025-01-01T05:00:00+00:00" ++ " Hour " ++ e.1 ++
          ": PM2.5: " ++ renderVal e.2.avg_pm2_5 ++ ", PM10: " ++
          renderVal e.2.avg_pm10) ∧
    renderVal .noData = "NO DATA" :=
  C7_emitter_line_format "2025-01-01T05:00:00+00:00" ⟨2025, 1, 1, 5, 0, 0, 0⟩
    (some []) [] (noDataReport 5)
    (send_aq_report (noDataReport 5) "2025-01-01")
    (by decide) (by decide) (by decide) (by decide)

/-- C8: the aggregator is deterministic: it is a pure function of the window
and the run time (the embedded task reads nothing else), so two runs on equal
inputs produce identical reports. -/
theorem C8_aggregator_deterministic (rows1 rows2 : List CsvRow)
    (t1 t2 : PyDateTime) (hrows : rows1 = rows2) (ht : t1 = t2) :
    caluclate_avg_aq_per_hour rows1 t1 = caluclate_avg_aq_per_hour rows2 t2 := by
  rw [hrows, ht]

/-- Witness for C8 on the scenario inputs. -/
theorem C8_witness :
    caluclate_avg_aq_per_hour c2Rows c2Ts = caluclate_avg_aq_per_hour c2Rows c2Ts :=
  C8_aggregator_deterministic c2Rows c2Rows c2Ts c2Ts rfl rfl

/-- C9: in every entry of every report the aggregator produces, avg_pm2_5 is
the NO DATA marker exactly when avg_pm10 is: both value lists come from the
same bucket rows, so their counts agree. -/
theorem C9_noData_iff_both (rows : List CsvRow) (t : PyDateTime)
    (report : List (String × HourEntry))
    (h : caluclate_avg_aq_per_hour rows t = some report) :
    ∀ p ∈ report, (p.2.avg_pm2_5 = .noData ↔ p.2.avg_pm10 = .noData) := by
  intro p hp
  obtain ⟨hh, hmem, hkey, hent⟩ := buildReport_entries rows _ report h p hp
  obtain ⟨bucket, pm25, pm10v, hb, h25, h10, he25, he10⟩ :=
    hourEntry_spec rows hh p.2 hent
  have l25 := parseVals_length CsvRow.pm2_5 bucket pm25 h25
  have l10 := parseVals_length CsvRow.pm10 bucket pm10v h10
  rw [he25, he10]
  by_cases hz : bucket.length = 0
  · simp [l25, l10, hz]
  · simp [l25, l10, hz]

/-- Witness for C9 on an entry of the all-NO-DATA report. -/
theorem C9_witness :
    ((("16", ⟨.noData, .noData⟩) : String × HourEntry).2.avg_pm2_5 = .noData ↔
      (("16", ⟨.noData, .noData⟩) : String × HourEntry).2.avg_pm10 = .noData) :=
  C9_noData_iff_both [] ⟨2025, 1, 1, 16, 0, 0, 0⟩ (noDataReport 16) (by decide)
    ("16", ⟨.noData, .noData⟩) (by decide)

lemma sum_map_ite_one (p : Nat → Bool) (hs : List Nat) :
    (hs.map (fun h => if p h then 1 else 0)).sum = (hs.filter p).length := by
  induction hs with
  | nil => rfl
  | cons a tl ih =>
    rw [List.map_cons, List.sum_cons, List.filter_cons]
    cases hp : p a with
    | false => simp [hp, ih]
    | true =>
      simp [hp, ih]
      omega

lemma sum_map_add_nat (f g : Nat → Nat) (hs : List Nat) :
    (hs.map (fun h => f h + g h)).sum = (hs.map f).sum + (hs.map g).sum := by
  induction hs with
  | nil => rfl
  | cons a tl ih =>
    simp only [List.map_cons, List.sum_cons, ih]
    omega

lemma count_in_nodup (hs : List Nat) (a : Nat) (hnd : hs.Nodup) (ha : a ∈ hs) :
    (hs.filter (fun h => a == h)).length = 1 := by
  induction hs with
  | nil => cases ha
  | cons b tl ih =>
    rw [List.filter_cons]
    have hnd2 := List.nodup_cons.mp hnd
    rcases List.mem_cons.mp ha with hab | hatl
    · subst hab
      have hz : tl.filter (fun h => a == h) = [] := by
        refine List.filter_eq_nil_iff.mpr ?_
        intro x hx
        simp only [beq_iff_eq]
        intro he
        exact hnd2.1 (he ▸ hx)
      simp [hz]
    · have hne : (a == b) = false := by
        refine beq_eq_false_iff_ne.mpr ?_
        intro he
        exact hnd2.1 (he ▸ hatl)
      rw [hne]
      simpa using ih hnd2.2 hatl

lemma sum_bucket_lengths (p : Nat → CsvRow → Bool) (hs : List Nat)
    (rows : List CsvRow)
    (hone : ∀ r ∈ rows, (hs.filter (fun h => p h r)).length = 1) :
    (hs.map (fun h => (rows.filter (p h)).length)).sum = rows.length := by
  revert hone
  induction rows with
  | nil =>
    intro _
    simp
  | cons r rest ih =>
    intro hone
    have hr1 := hone r (List.mem_cons_self r rest)
    have hrest := ih (fun x hx => hone x (List.mem_cons_of_mem r hx))
    have hsplit : ∀ h : Nat, ((r :: rest).filter (p h)).length =
        (if p h r then 1 else 0) + (rest.filter (p h)).length := by
      intro h
      rw [List.filter_cons]
      cases hp : p h r with
      | false => simp [hp]
      | true =>
        simp [hp]
        omega
    calc ((hs.map fun h => ((r :: rest).filter (p h)).length).sum)
        = (hs.map fun h =>
            (if p h r then 1 else 0) + (rest.filter (p h)).length).sum := by
          simp only [hsplit]
      _ = (hs.map fun h => if p h r then 1 else 0).sum +
          (hs.map fun h => (rest.filter (p h)).length).sum :=
          sum_map_add_nat _ _ hs
      _ = (hs.filter (fun h => p h r)).length + rest.length := by
          rw [sum_map_ite_one (fun h => p h r) hs, hrest]
      _ = 1 + rest.length := by rw [hr1]
      _ = (r :: rest).length := by
          simp [Nat.add_comm]

/-- C10: the 24 enumerated target hours are pairwise distinct and are exactly
the hours 0-23; every bucket the aggregator forms is the corresponding filter
of the window; every window row matches exactly one target hour; and the
bucket sizes sum to the window's length, so no row is dropped or counted
twice. -/
theorem C10_hours_partition_window (rows : List CsvRow) (t : PyDateTime)
    (hall : ∀ r ∈ rows, (parseTimestamp r.timestamp).isSome) :
    (last24Hours t.hour).Nodup ∧
    (∀ h : Nat, h ∈ last24Hours t.hour ↔ h < 24) ∧
    (∀ h : Nat, rowsForHour rows h = some (rows.filter (inBucket h))) ∧
    (∀ r ∈ rows,
      ((last24Hours t.hour).filter (fun h => inBucket h r)).length = 1) ∧
    ((last24Hours t.hour).map
      (fun h => (rows.filter (inBucket h)).length)).sum = rows.length := by
  have huniq : ∀ r ∈ rows,
      ((last24Hours t.hour).filter (fun h => inBucket h r)).length = 1 := by
    intro r hr
    have hs := hall r hr
    cases hpdt : parseTimestamp r.timestamp with
    | none => rw [hpdt] at hs; cases hs
    | some dt =>
      have hco : ∀ h ∈ last24Hours t.hour, (inBucket h r) = (dt.hour == h) := by
        intro h _
        unfold inBucket
        rw [hpdt]
      rw [List.filter_congr hco]
      have h23 := parseTimestamp_hour_le _ _ hpdt
      exact count_in_nodup _ _ (last24Hours_nodup t.hour)
        ((mem_last24Hours _ _).mpr (by omega))
  refine ⟨last24Hours_nodup t.hour, fun h => mem_last24Hours t.hour h,
    fun h => rowsForHour_of_allParse h rows hall, huniq, ?_⟩
  exact sum_bucket_lengths (fun h r => inBucket h r) (last24Hours t.hour)
    rows huniq

/-- Witness for C10: bucket sizes of the scenario window sum to its length. -/
theorem C10_witness :
    ((last24Hours 16).map
      (fun h => (c2Rows.filter (inBucket h)).length)).sum = c2Rows.length :=
  (C10_hours_partition_window c2Rows c2Ts (by decide)).2.2.2.2

end AqReport
